import Mathlib

/-!
# Verification of the Hot-Dog 3D viewer core (`Hot-Dog.py`)

A shallow embedding of the mesh data model, the mesh builders
(`generate_cube`, `generate_sphere`, `load_from_obj`), the camera
(`project`, `auto_position`), the per-frame projection-cache decision,
the face depth sort and the shading stage of `draw_mesh`, together with
theorems settling the specification's claims about them.

Python floats are modelled as rationals (`ℚ`); the transcendental
functions `math.sin`, `math.cos`, `math.sqrt` and `math.pi`, and the
random color generator, are passed in as explicit parameters so that
every definition stays executable.  Python `int(x)` is truncation
toward zero, and Python list indexing accepts negative indices; both
are modelled explicitly below.
-/

/-- A 3D point / vector, i.e. a Python 3-tuple of floats. -/
abbrev Vec3 : Type := ℚ × ℚ × ℚ

/-- A face: the triple of vertex indices the code stores
(Python ints, so possibly negative). -/
abbrev Face : Type := ℤ × ℤ × ℤ

/-- An 8-bit-channel RGB color as produced by `random.randint`. -/
abbrev RGB : Type := ℕ × ℕ × ℕ

/-- A projected vertex `(x_screen, y_screen, z)` as returned by
`Camera.project`. -/
abbrev Proj : Type := ℤ × ℤ × ℚ

/-- The per-vertex projection cache `mesh.vertex_cache`: a dictionary
from vertex index to projection, modelled as an association list where
the most recent binding shadows older ones. -/
abbrev VCache : Type := List (ℕ × Proj)

/-- Python `int(x)` on a float: truncation toward zero.  For the
rational `num/den` (with `den > 0`) this is the toward-zero integer
division `num.tdiv den`. -/
def pytrunc (q : ℚ) : ℤ :=
  q.num.tdiv q.den

/-- Python list indexing `l[i]`: a negative `i` counts from the end;
an index out of `[-len l, len l)` raises `IndexError` (here `none`). -/
def pyGet (l : List α) (i : ℤ) : Option α :=
  if 0 ≤ i then l[i.toNat]?
  else if 0 ≤ (l.length : ℤ) + i then l[((l.length : ℤ) + i).toNat]?
  else none

/-- The `Mesh` object: the fields of `Mesh.__init__` that the core
uses (`texture` is never read by the pipeline and is omitted). -/
structure Mesh where
  vertices : List Vec3
  faces : List Face
  normals : List Vec3
  colors : List RGB
  bounding_box : Vec3 × Vec3
  vertex_cache : VCache
deriving DecidableEq, Repr

/-- `Mesh.calculate_bounding_box`: componentwise min/max over the
vertices, defaulting to the unit cube `[(-1,-1,-1),(1,1,1)]` when the
vertex list is empty. -/
def Mesh.calculate_bounding_box (m : Mesh) : Mesh :=
  match m.vertices with
  | [] => { m with bounding_box := ((-1, -1, -1), (1, 1, 1)) }
  | v :: vs =>
    let min_x := vs.foldl (fun a w => min a w.1) v.1
    let min_y := vs.foldl (fun a w => min a w.2.1) v.2.1
    let min_z := vs.foldl (fun a w => min a w.2.2) v.2.2
    let max_x := vs.foldl (fun a w => max a w.1) v.1
    let max_y := vs.foldl (fun a w => max a w.2.1) v.2.1
    let max_z := vs.foldl (fun a w => max a w.2.2) v.2.2
    { m with bounding_box := ((min_x, min_y, min_z), (max_x, max_y, max_z)) }

/-- `Mesh.get_size`: extents of the bounding box. -/
def Mesh.get_size (m : Mesh) : Vec3 :=
  let (min_pos, max_pos) := m.bounding_box
  (max_pos.1 - min_pos.1, max_pos.2.1 - min_pos.2.1, max_pos.2.2 - min_pos.2.2)

/-- `Mesh.get_center`: midpoint of the bounding box. -/
def Mesh.get_center (m : Mesh) : Vec3 :=
  let (min_pos, max_pos) := m.bounding_box
  ((min_pos.1 + max_pos.1) / 2, (min_pos.2.1 + max_pos.2.1) / 2,
    (min_pos.2.2 + max_pos.2.2) / 2)

/-- `Mesh.generate_cube`: the fixed 8-vertex, 12-triangle cube with
its hard-coded per-face normals and colors, ending with the
bounding-box recomputation and a cleared vertex cache. -/
def Mesh.generate_cube (m : Mesh) : Mesh :=
  Mesh.calculate_bounding_box
    { m with
      vertices := [(-1, -1, -1), (1, -1, -1), (1, 1, -1), (-1, 1, -1),
                   (-1, -1, 1), (1, -1, 1), (1, 1, 1), (-1, 1, 1)]
      faces := [(0, 1, 2), (0, 2, 3),
                (4, 5, 6), (4, 6, 7),
                (0, 4, 7), (0, 7, 3),
                (1, 5, 6), (1, 6, 2),
                (3, 2, 6), (3, 6, 7),
                (0, 1, 5), (0, 5, 4)]
      normals := [(0, 0, -1), (0, 0, -1),
                  (0, 0, 1), (0, 0, 1),
                  (-1, 0, 0), (-1, 0, 0),
                  (1, 0, 0), (1, 0, 0),
                  (0, 1, 0), (0, 1, 0),
                  (0, -1, 0), (0, -1, 0)]
      colors := [(255, 0, 0), (200, 0, 0),
                 (0, 255, 0), (0, 200, 0),
                 (0, 0, 255), (0, 0, 200),
                 (255, 255, 0), (200, 200, 0),
                 (255, 0, 255), (200, 0, 200),
                 (0, 255, 255), (0, 200, 200)]
      vertex_cache := [] }

/-- The point appended to both `vertices` and `normals` for ring `i`,
point `j` of `Mesh.generate_sphere`:
`(sin lat * cos lon, cos lat, sin lat * sin lon)` with
`lat = pi*i/res` and `lon = 2*pi*j/res`. -/
def spherePoint (sin cos : ℚ → ℚ) (pi : ℚ) (res i j : ℕ) : Vec3 :=
  let lat := pi * i / res
  let lon := 2 * pi * j / res
  (sin lat * cos lon, cos lat, sin lat * sin lon)

/-- The two triangles of quad cell `(i, j)` in `Mesh.generate_sphere`:
`(v1,v2,v3)` and `(v2,v4,v3)` with `v1 = i*(res+1)+j`, `v2 = v1+1`,
`v3 = v1+(res+1)`, `v4 = v2+(res+1)`. -/
def sphereQuad (res i j : ℕ) : List Face :=
  let v1 : ℤ := (i * (res + 1) + j : ℕ)
  let v2 : ℤ := v1 + 1
  let v3 : ℤ := v1 + ((res : ℤ) + 1)
  let v4 : ℤ := v2 + ((res : ℤ) + 1)
  [(v1, v2, v3), (v2, v4, v3)]

/-- The vertex loop of `Mesh.generate_sphere`: for each `i` in
`range(res+1)` and each `j` in `range(res+1)`, one point. -/
def spherePts (sin cos : ℚ → ℚ) (pi : ℚ) (res : ℕ) : List Vec3 :=
  (List.range (res + 1)).flatMap fun i =>
    (List.range (res + 1)).map fun j => spherePoint sin cos pi res i j

/-- The face loop of `Mesh.generate_sphere`: two triangles per quad
cell `(i, j)` with `i, j` in `range(res)`. -/
def sphereFaces (res : ℕ) : List Face :=
  (List.range res).flatMap fun i =>
    (List.range res).flatMap fun j => sphereQuad res i j

/-- `Mesh.generate_sphere`: lat/long tessellation.  The vertex loop
appends the same point to `vertices` and to `normals` (one normal per
*vertex*, not per face); faces come from the nested quad loops; colors
are one random triple per face; ends with the bounding-box
recomputation.  `sin`, `cos`, `pi` stand for `math.sin`, `math.cos`,
`math.pi`, and `rand i` for the `i`-th `(randint, randint, randint)`
triple drawn. -/
def Mesh.generate_sphere (sin cos : ℚ → ℚ) (pi : ℚ) (rand : ℕ → RGB)
    (m : Mesh) (res : ℕ) : Mesh :=
  Mesh.calculate_bounding_box
    { m with vertices := spherePts sin cos pi res,
             faces := sphereFaces res,
             normals := spherePts sin cos pi res,
             colors := (List.range (sphereFaces res).length).map rand,
             vertex_cache := [] }

/-! ## OBJ import (`Mesh.load_from_obj`)

An input file is modelled after the code's own view of it: each line,
already split into whitespace tokens, is either a `v` line (the
numeric tokens after `v`, where `none` stands for a token on which
`float(...)` raises), an `f` line (the leading vertex-index part of
each token after `f`, i.e. the part before the first `/`, where `none`
stands for a token on which `int(...)` raises), or any other line,
which the code ignores.  An unreadable source (`open` raising) is the
`none` file. -/

inductive ObjLine where
  | vLine (coords : List (Option ℚ))
  | fLine (idxTokens : List (Option ℤ))
  | other
deriving DecidableEq, Repr

/-- The fan triangulation of `load_from_obj`: for a face token list of
length > 3, triangle `j` is `(fv[0], fv[j], fv[j+1])`; for exactly 3
tokens, the tuple itself. -/
def fanTriangles (fv : List ℤ) : List Face :=
  if fv.length > 3 then
    (List.range (fv.length - 2)).map fun j =>
      (fv.headI, fv.getD (j + 1) 0, fv.getD (j + 2) 0)
  else
    [(fv.getD 0 0, fv.getD 1 0, fv.getD 2 0)]

/-- All-or-nothing extraction of the `int(vertex_parts[0]) - 1`
values of an `f` line; `none` when any token raises. -/
def collectFaceIdx : List (Option ℤ) → Option (List ℤ)
  | [] => some []
  | none :: _ => none
  | some i :: rest => (collectFaceIdx rest).map fun l => (i - 1) :: l

/-- The line-reading loop of `load_from_obj`, acting on the
already-cleared mesh.  A raised exception aborts the loop, leaving the
partial state (`Except.error`). -/
def readObjLines : List ObjLine → Mesh → Except Mesh Mesh
  | [], m => .ok m
  | .vLine coords :: rest, m =>
    if coords.length ≥ 3 then
      -- vertex `(float(parts[1]), -float(parts[3]), float(parts[2]))`
      match coords.getD 0 none, coords.getD 2 none, coords.getD 1 none with
      | some a, some c, some b =>
        readObjLines rest { m with vertices := m.vertices ++ [(a, -c, b)] }
      | _, _, _ => .error m
    else readObjLines rest m
  | .fLine toks :: rest, m =>
    if toks.length ≥ 3 then
      match collectFaceIdx toks with
      | some fv => readObjLines rest { m with faces := m.faces ++ fanTriangles fv }
      | none => .error m
    else readObjLines rest m
  | .other :: rest, m => readObjLines rest m

/-- One normal of the post-parse normal-generation loop: fetch the
face's three vertices (Python indexing; `IndexError` = `none`), take
the cross product of the two edge vectors, and normalize it, with the
`(0, 0, 1)` fallback when the length is not positive. -/
def faceNormal (sqrt : ℚ → ℚ) (verts : List Vec3) (f : Face) : Option Vec3 :=
  match pyGet verts f.1, pyGet verts f.2.1, pyGet verts f.2.2 with
  | some v1, some v2, some v3 =>
    let u : Vec3 := (v2.1 - v1.1, v2.2.1 - v1.2.1, v2.2.2 - v1.2.2)
    let v : Vec3 := (v3.1 - v1.1, v3.2.1 - v1.2.1, v3.2.2 - v1.2.2)
    let n : Vec3 := (u.2.1 * v.2.2 - u.2.2 * v.2.1,
                     u.2.2 * v.1 - u.1 * v.2.2,
                     u.1 * v.2.1 - u.2.1 * v.1)
    let len := sqrt (n.1 ^ 2 + n.2.1 ^ 2 + n.2.2 ^ 2)
    some (if len > 0 then (n.1 / len, n.2.1 / len, n.2.2 / len) else (0, 0, 1))
  | _, _, _ => none

/-- The normal-generation loop of `load_from_obj`: appends one normal
per face; an `IndexError` aborts it, leaving the normals appended so
far (`Except.error`). -/
def genNormals (sqrt : ℚ → ℚ) (verts : List Vec3) :
    List Face → List Vec3 → Except (List Vec3) (List Vec3)
  | [], acc => .ok acc
  | f :: rest, acc =>
    match faceNormal sqrt verts f with
    | some n => genNormals sqrt verts rest (acc ++ [n])
    | none => .error acc

/-- `Mesh.load_from_obj`: clears the five geometry fields, reads the
lines, regenerates normals from geometry and randomizes colors, then
recomputes the bounding box and returns `True`; any exception is
caught and `False` is returned with whatever state the mesh holds at
that point.  `sqrt` stands for `math.sqrt` and `rand i` for the `i`-th
random color triple. -/
def Mesh.load_from_obj (sqrt : ℚ → ℚ) (rand : ℕ → RGB) (m : Mesh)
    (file : Option (List ObjLine)) : Bool × Mesh :=
  let m0 : Mesh := { m with vertices := [], faces := [], normals := [],
                            colors := [], vertex_cache := [] }
  match file with
  | none => (false, m0)
  | some lines =>
    match readObjLines lines m0 with
    | .error mp => (false, mp)
    | .ok m1 =>
      match genNormals sqrt m1.vertices m1.faces [] with
      | .error ns => (false, { m1 with normals := ns })
      | .ok ns =>
        let m2 := { m1 with normals := ns }
        let m3 := { m2 with colors := (List.range m2.faces.length).map rand }
        (true, Mesh.calculate_bounding_box m3)

/-! ## Camera -/

/-- The fixed screen width (`WIDTH = 1200`). -/
def WIDTH : ℤ := 1200

/-- The fixed screen height (`HEIGHT = 800`). -/
def HEIGHT : ℤ := 800

/-- The `Camera` object and its `__init__` defaults. -/
structure Camera where
  x : ℚ := 0
  y : ℚ := 0
  z : ℚ := -5
  rot_x : ℚ := 0
  rot_y : ℚ := 0
  rot_z : ℚ := 0
  fov : ℚ := 60
  near : ℚ := 1 / 10
  far : ℚ := 100
  pan_x : ℚ := 0
  pan_y : ℚ := 0
  last_rot_x : ℚ := 0
  last_rot_y : ℚ := 0
  moved : Bool := true
  cache_key : Option (ℚ × ℚ × ℚ × ℚ × ℚ) := none
deriving DecidableEq, Repr

/-- The camera constructed by `Camera.__init__`. -/
def Camera.init : Camera := {}

/-- `Camera.project`: rotate about Y then X, translate by position and
pan, apply the `fov / (z + 1e-5)` perspective factor, and map to
screen coordinates `WIDTH//2 + int(x_proj*100)`,
`HEIGHT//2 + int(y_proj*100)`; returns the post-rotation depth as the
third component.  `sin`, `cos` stand for `math.sin`, `math.cos`. -/
def Camera.project (sin cos : ℚ → ℚ) (c : Camera) (point : Vec3) : Proj :=
  let x := point.1
  let y := point.2.1
  let z := point.2.2
  let x_rot := x * cos c.rot_y - z * sin c.rot_y
  let z_rot := x * sin c.rot_y + z * cos c.rot_y
  let x := x_rot
  let z := z_rot
  let y_rot := y * cos c.rot_x - z * sin c.rot_x
  let z_rot := y * sin c.rot_x + z * cos c.rot_x
  let y := y_rot
  let z := z_rot
  let x := x + c.x + c.pan_x
  let y := y + c.y + c.pan_y
  let z := z + c.z
  let factor := c.fov / (z + 1 / 100000)
  let x_proj := x * factor
  let y_proj := y * factor
  let x_screen := WIDTH / 2 + pytrunc (x_proj * 100)
  let y_screen := HEIGHT / 2 + pytrunc (y_proj * 100)
  (x_screen, y_screen, z)

/-- `Camera.auto_position`: `z := -max_dim * 2.5`, pan to the negated
bounding-box center, zero `x`, `y` and both rotation angles, and set
the `moved` flag.  The mesh is only read (`get_size`/`get_center`);
it is returned unchanged to make that explicit. -/
def Camera.auto_position (c : Camera) (m : Mesh) : Camera × Mesh :=
  let size := m.get_size
  let center := m.get_center
  let max_dim := max size.1 (max size.2.1 size.2.2)
  ({ c with z := -max_dim * (5 / 2),
            pan_x := -center.1, pan_y := -center.2.1,
            x := 0, y := 0, rot_x := 0, rot_y := 0,
            moved := true }, m)

/-! ## `draw_mesh`: projection-cache decision and lazy projection -/

/-- The camera-state tuple `current_key` of `draw_mesh`:
`(rot_x, rot_y, z, pan_x, pan_y)`. -/
def fingerprint (c : Camera) : ℚ × ℚ × ℚ × ℚ × ℚ :=
  (c.rot_x, c.rot_y, c.z, c.pan_x, c.pan_y)

/-- Dictionary lookup `vertex_idx in cache` / `cache[vertex_idx]`. -/
def lookupVC : VCache → ℕ → Option Proj
  | [], _ => none
  | (k, p) :: rest, i => if k = i then some p else lookupVC rest i

/-- Dictionary assignment `cache[vertex_idx] = projected`: the new
binding shadows any older one. -/
def insertVC (vc : VCache) (i : ℕ) (p : Proj) : VCache :=
  (i, p) :: vc

/-- The cache decision at the top of `draw_mesh`: `use_cache` is true
exactly when the camera has not moved, the current key equals the
stored `cache_key`, and performance mode is off; otherwise the vertex
cache is cleared, the current key is stored, and the moved flag is
reset.  Returns `(use_cache, camera', vertex_cache')`. -/
def cacheDecision (performance_mode : Bool) (c : Camera) (vc : VCache) :
    Bool × Camera × VCache :=
  let current_key := fingerprint c
  if c.moved = false ∧ c.cache_key = some current_key ∧ performance_mode = false then
    (true, c, vc)
  else
    (false, { c with cache_key := some current_key, moved := false }, [])

/-- The per-vertex projection step of the depth loop in `draw_mesh`:
use the cached projection when `use_cache` holds and the vertex is in
the cache, else project the vertex now and store the result. -/
def cachedProject (sin cos : ℚ → ℚ) (c : Camera) (use_cache : Bool)
    (vc : VCache) (i : ℕ) (v : Vec3) : Proj × VCache :=
  match use_cache, lookupVC vc i with
  | true, some p => (p, vc)
  | _, _ =>
    let p := Camera.project sin cos c v
    (p, insertVC vc i p)

/-! ## `draw_mesh`: face depth sort

`face_depths.sort(key=lambda x: x[1], reverse=True)` — Python's
stable sort by descending depth, modelled as a stable insertion
sort. -/

/-- Insert a `(face index, depth)` pair into a descending-by-depth
list, after every strictly deeper element and before everything else
(so an already-present equal depth is placed after the new element's
predecessors, keeping original order stable under `sortFaceDepths`). -/
def insertByDepth (x : ℕ × ℚ) : List (ℕ × ℚ) → List (ℕ × ℚ)
  | [] => [x]
  | y :: ys => if x.2 < y.2 then y :: insertByDepth x ys else x :: y :: ys

/-- The stable descending sort of the `(face index, average depth)`
list. -/
def sortFaceDepths (l : List (ℕ × ℚ)) : List (ℕ × ℚ) :=
  l.foldr insertByDepth []

/-! ## `draw_mesh`: shading stage -/

/-- The six texture-map color modes (`texture_map_mode = 0..5`). -/
inductive ColorMode where
  | color | normalMap | specular | metallic | roughness | glossiness
deriving DecidableEq, Repr

/-- The shading stage of `draw_mesh`: the `texture_map_mode` branch
turning the base face color and the computed intensity into the final
RGB triple (each channel through Python `int`, with no clamping). -/
def shade (base : RGB) (intensity : ℚ) : ColorMode → ℤ × ℤ × ℤ
  | .color =>
    (pytrunc (base.1 * intensity), pytrunc (base.2.1 * intensity),
      pytrunc (base.2.2 * intensity))
  | .normalMap =>
    (pytrunc (100 * intensity), pytrunc (100 * intensity),
      pytrunc (255 * intensity))
  | .specular =>
    (pytrunc (255 * intensity), pytrunc (255 * intensity),
      pytrunc (255 * intensity))
  | .metallic =>
    let metallic := (intensity + 1 / 2) / 2
    (pytrunc (200 * metallic), pytrunc (200 * metallic),
      pytrunc (200 * metallic))
  | .roughness =>
    let roughness := 1 - intensity
    (pytrunc (100 * roughness), pytrunc (100 * roughness),
      pytrunc (100 * roughness))
  | .glossiness =>
    let glossiness := intensity * (3 / 2)
    (pytrunc (255 * glossiness), pytrunc (255 * glossiness),
      pytrunc (255 * glossiness))

/-- The clearing of the mesh's five geometry fields at the top of
`load_from_obj` (before the file is even opened). -/
def clearMesh (m : Mesh) : Mesh :=
  { m with vertices := [], faces := [], normals := [], colors := [], vertex_cache := [] }

/-- The payload of an `Except` result, whichever side it is on. -/
def exVal : Except Mesh Mesh → Mesh
  | .error x => x
  | .ok x => x

/-- Python-valid index: `-n ≤ i < n`. -/
def pyValid (n : ℕ) (i : ℤ) : Prop :=
  -(n : ℤ) ≤ i ∧ i < n

instance (n : ℕ) (i : ℤ) : Decidable (pyValid n i) := by
  unfold pyValid
  infer_instance

/-! ## Concrete instances used by the theorems below -/

/-- The zero function, standing in for a transcendental parameter at a
concrete evaluation point. -/
def q0 : ℚ → ℚ := fun _ => 0

/-- The constant-one function (a `cos` whose value at every point is
1, matching `q0` as the `sin` in `sin² + cos² = 1`). -/
def c1 : ℚ → ℚ := fun _ => 1

/-- A fixed random-color stream. -/
def r0 : ℕ → RGB := fun _ => (0, 0, 0)

/-- A blank mesh (the field values of `Mesh.__init__` just before
`generate_cube` is called). -/
def m00 : Mesh :=
  { vertices := [], faces := [], normals := [], colors := [],
    bounding_box := ((-1, -1, -1), (1, 1, 1)), vertex_cache := [] }

/-- The default cube mesh, as `Mesh.__init__` builds it. -/
def cubeM : Mesh := Mesh.generate_cube m00

/-- An import file whose first `v` line has a malformed first
coordinate token (`float` raises). -/
def badFile : Option (List ObjLine) :=
  some [ObjLine.vLine [none, some 0, some 0]]

/-- An import file defining a single vertex and no faces. -/
def ptFile : Option (List ObjLine) :=
  some [ObjLine.vLine [some 0, some 0, some 0]]

/-- An import file with three vertices and the face line `f 1 2 0`:
token `0` becomes index `-1` after the 1-based correction. -/
def negFile : Option (List ObjLine) :=
  some [ObjLine.vLine [some 0, some 0, some 0],
        ObjLine.vLine [some 1, some 0, some 0],
        ObjLine.vLine [some 0, some 1, some 0],
        ObjLine.fLine [some 1, some 2, some 0]]

/-! ## Claim theorems -/

/-- Claim C9: `project` applied to the point `(0,0,0)` with the camera
in its default state (`rot = 0`, `pan = 0`, `z = -5`) returns the
screen center `(WIDTH/2, HEIGHT/2)` (and depth `-5`), for any
interpretation of `math.sin` and `math.cos`. -/
theorem C9_project_origin :
    ∀ sin cos : ℚ → ℚ,
      Camera.project sin cos Camera.init (0, 0, 0) = (WIDTH / 2, HEIGHT / 2, -5) := by
  intro sin cos
  simp only [Camera.project, Camera.init]
  norm_num [pytrunc, WIDTH, HEIGHT]

/-- Claim C10: `auto_position` modifies only the camera's `z`, pan,
`x`/`y`, pitch/yaw rotation and `moved` flag; its field of view, near
and far clip scalars, roll angle, cached fingerprint (and the
`last_rot` pair) are unchanged, and the mesh passed in is returned
unmodified. -/
theorem C10_auto_position_frame :
    ∀ (c : Camera) (m : Mesh),
      (Camera.auto_position c m).1.fov = c.fov ∧
      (Camera.auto_position c m).1.near = c.near ∧
      (Camera.auto_position c m).1.far = c.far ∧
      (Camera.auto_position c m).1.rot_z = c.rot_z ∧
      (Camera.auto_position c m).1.cache_key = c.cache_key ∧
      (Camera.auto_position c m).1.last_rot_x = c.last_rot_x ∧
      (Camera.auto_position c m).1.last_rot_y = c.last_rot_y ∧
      (Camera.auto_position c m).2 = m := by
  intro c m
  exact ⟨rfl, rfl, rfl, rfl, rfl, rfl, rfl, rfl⟩

/-- Claim C3 (code bug): with intensity `1` (reachable, since the
Lambertian intensity is `max(0.2, dot)` of unit vectors), Glossiness
mode computes `int(255 * 1.5) = 382` per channel — the code never
clamps, so the output channel leaves `[0, 255]`. -/
theorem C3_glossiness_unclamped :
    shade (255, 255, 255) 1 ColorMode.glossiness = (382, 382, 382) ∧
      ¬((382 : ℤ) ≤ 255) := by
  constructor
  · with_unfolding_all decide
  · decide

/-- Claim C1 fails as stated: the sphere builder appends one normal
per *vertex*, not per face, so at resolution 1 it stores 4 normals but
only 2 faces (and 2 colors). -/
theorem C1_counterexample :
    (Mesh.generate_sphere q0 q0 0 r0 m00 1).normals.length = 4 ∧
      (Mesh.generate_sphere q0 q0 0 r0 m00 1).faces.length = 2 ∧
      (Mesh.generate_sphere q0 q0 0 r0 m00 1).normals.length ≠
        (Mesh.generate_sphere q0 q0 0 r0 m00 1).faces.length := by
  refine ⟨?_, ?_, ?_⟩ <;> with_unfolding_all decide

/-- Claim C2 fails as stated: importing a file whose only `v` line has
a malformed first coordinate reports failure, but the mesh's vertex
list — cleared before parsing — is no longer the cube's. -/
theorem C2_counterexample :
    (Mesh.load_from_obj q0 r0 cubeM badFile).1 = false ∧
      (Mesh.load_from_obj q0 r0 cubeM badFile).2.vertices ≠ cubeM.vertices := by
  constructor <;> with_unfolding_all decide

/-- Claim C4 fails as stated: the face line `f 1 2 0` yields the face
`(0, 1, -1)` (token `0` minus the 1-based correction), the import
nevertheless reports success (Python indexing accepts `-1` during
normal generation), and `-1` is not a valid 0-based index. -/
theorem C4_counterexample :
    (Mesh.load_from_obj q0 r0 cubeM negFile).1 = true ∧
      ((0 : ℤ), (1 : ℤ), (-1 : ℤ)) ∈ (Mesh.load_from_obj q0 r0 cubeM negFile).2.faces ∧
      ¬(0 ≤ (-1 : ℤ)) := by
  refine ⟨?_, ?_, ?_⟩ <;> with_unfolding_all decide

/-- Claim C5 fails as stated: a successfully imported single-point
mesh has a zero-size bounding box, and `auto_position` then sets the
camera's `z` to `-0 × 2.5 = 0` — distance zero, with no
minimum-distance fallback. -/
theorem C5_counterexample :
    (Mesh.load_from_obj q0 r0 cubeM ptFile).1 = true ∧
      (Mesh.load_from_obj q0 r0 cubeM ptFile).2.get_size = (0, 0, 0) ∧
      (Camera.auto_position Camera.init
        (Mesh.load_from_obj q0 r0 cubeM ptFile).2).1.z = 0 := by
  refine ⟨?_, ?_, ?_⟩ <;> with_unfolding_all decide

lemma calculate_bounding_box_fields (m : Mesh) :
    (m.calculate_bounding_box).vertices = m.vertices ∧
      (m.calculate_bounding_box).faces = m.faces ∧
      (m.calculate_bounding_box).normals = m.normals ∧
      (m.calculate_bounding_box).colors = m.colors ∧
      (m.calculate_bounding_box).vertex_cache = m.vertex_cache := by
  rcases m with ⟨vs, fs, ns, cs, bb, vc⟩
  cases vs <;> exact ⟨rfl, rfl, rfl, rfl, rfl⟩

/-- The line-reading loop touches only `vertices` and `faces`:
`normals`, `colors`, `bounding_box` and `vertex_cache` pass through,
whether it finishes or aborts. -/
lemma readObjLines_preserve (lines : List ObjLine) (m : Mesh) :
    (exVal (readObjLines lines m)).normals = m.normals ∧
      (exVal (readObjLines lines m)).colors = m.colors ∧
      (exVal (readObjLines lines m)).bounding_box = m.bounding_box ∧
      (exVal (readObjLines lines m)).vertex_cache = m.vertex_cache := by
  induction lines generalizing m with
  | nil => exact ⟨rfl, rfl, rfl, rfl⟩
  | cons l rest ih =>
    cases l with
    | vLine coords =>
      simp only [readObjLines]
      split
      · split
        · exact ih _
        · exact ⟨rfl, rfl, rfl, rfl⟩
      · exact ih _
    | fLine toks =>
      simp only [readObjLines]
      split
      · split
        · exact ih _
        · exact ⟨rfl, rfl, rfl, rfl⟩
      · exact ih _
    | other => exact ih _

/-- Inversion of a successful `load_from_obj` call. -/
lemma load_from_obj_ok (sqrt : ℚ → ℚ) (rand : ℕ → RGB) (m : Mesh)
    (file : Option (List ObjLine)) (m' : Mesh)
    (h : Mesh.load_from_obj sqrt rand m file = (true, m')) :
    ∃ lines m1 ns, file = some lines ∧
      readObjLines lines (clearMesh m) = .ok m1 ∧
      genNormals sqrt m1.vertices m1.faces [] = .ok ns ∧
      m' = Mesh.calculate_bounding_box
        { m1 with normals := ns, colors := (List.range m1.faces.length).map rand } := by
  unfold Mesh.load_from_obj at h
  cases file with
  | none => simp at h
  | some lines =>
    dsimp only at h
    rcases hE : readObjLines lines
        { m with vertices := [], faces := [], normals := [], colors := [], vertex_cache := [] }
      with mp | m1
    · rw [hE] at h
      simp at h
    · rw [hE] at h
      dsimp only at h
      rcases hG : genNormals sqrt m1.vertices m1.faces [] with ns | ns
      · rw [hG] at h
        simp at h
      · rw [hG] at h
        dsimp only at h
        simp only [Prod.mk.injEq, true_and] at h
        exact ⟨lines, m1, ns, rfl, hE, hG, h.symm⟩

/-- Inversion of a failed `load_from_obj` call: every failure path
leaves the colors empty and the bounding box untouched. -/
lemma load_from_obj_failure (sqrt : ℚ → ℚ) (rand : ℕ → RGB) (m : Mesh)
    (file : Option (List ObjLine)) (res : Bool × Mesh)
    (hres : Mesh.load_from_obj sqrt rand m file = res) (hfail : res.1 = false) :
    res.2.colors = [] ∧ res.2.bounding_box = m.bounding_box := by
  unfold Mesh.load_from_obj at hres
  cases file with
  | none =>
    subst hres
    exact ⟨rfl, rfl⟩
  | some lines =>
    dsimp only at hres
    rcases hE : readObjLines lines
        { m with vertices := [], faces := [], normals := [], colors := [], vertex_cache := [] }
      with mp | m1
    · rw [hE] at hres
      dsimp only at hres
      subst hres
      have hp := readObjLines_preserve lines
        { m with vertices := [], faces := [], normals := [], colors := [], vertex_cache := [] }
      rw [hE] at hp
      exact ⟨hp.2.1, hp.2.2.1⟩
    · rw [hE] at hres
      dsimp only at hres
      have hp := readObjLines_preserve lines
        { m with vertices := [], faces := [], normals := [], colors := [], vertex_cache := [] }
      rw [hE] at hp
      rcases hG : genNormals sqrt m1.vertices m1.faces [] with ns | ns
      · rw [hG] at hres
        dsimp only at hres
        subst hres
        exact ⟨hp.2.1, hp.2.2.1⟩
      · rw [hG] at hres
        dsimp only at hres
        subst hres
        simp at hfail

/-- `pyGet` succeeds exactly on Python-valid indices:
`-len l ≤ i < len l`. -/
lemma pyGet_isSome (l : List α) (i : ℤ) :
    (pyGet l i).isSome = true ↔ -(l.length : ℤ) ≤ i ∧ i < l.length := by
  unfold pyGet
  by_cases h1 : 0 ≤ i
  · simp only [h1, if_true]
    constructor
    · intro h
      rcases Option.isSome_iff_exists.mp h with ⟨v, hv⟩
      obtain ⟨hlt, -⟩ := List.getElem?_eq_some.mp hv
      omega
    · rintro ⟨ha, hb⟩
      have hlt : i.toNat < l.length := by omega
      rw [List.getElem?_eq_getElem hlt]
      simp
  · by_cases h2 : 0 ≤ (l.length : ℤ) + i
    · simp only [h1, if_false, h2, if_true]
      constructor
      · intro h
        rcases Option.isSome_iff_exists.mp h with ⟨v, hv⟩
        obtain ⟨hlt, -⟩ := List.getElem?_eq_some.mp hv
        omega
      · rintro ⟨ha, hb⟩
        have hlt : ((l.length : ℤ) + i).toNat < l.length := by omega
        rw [List.getElem?_eq_getElem hlt]
        simp
    · simp only [h1, if_false, h2]
      constructor
      · intro h
        simp at h
      · rintro ⟨ha, hb⟩
        omega

/-- A computed face normal requires all three Python vertex lookups to
succeed. -/
lemma faceNormal_isSome (sqrt : ℚ → ℚ) (verts : List Vec3) (f : Face)
    (h : (faceNormal sqrt verts f).isSome = true) :
    (pyGet verts f.1).isSome = true ∧ (pyGet verts f.2.1).isSome = true ∧
      (pyGet verts f.2.2).isSome = true := by
  unfold faceNormal at h
  rcases hva : pyGet verts f.1 with _ | v1 <;> rw [hva] at h
  · simp at h
  · rcases hb : pyGet verts f.2.1 with _ | v2 <;> rw [hb] at h
    · simp at h
    · rcases hc : pyGet verts f.2.2 with _ | v3 <;> rw [hc] at h
      · simp at h
      · exact ⟨by simp [hva], by simp [hb], by simp [hc]⟩

/-- A finished normal-generation loop produced one normal per face. -/
lemma genNormals_ok_length (sqrt : ℚ → ℚ) (verts : List Vec3) :
    ∀ (fs : List Face) (acc ns : List Vec3),
      genNormals sqrt verts fs acc = .ok ns → ns.length = acc.length + fs.length := by
  intro fs
  induction fs with
  | nil =>
    intro acc ns h
    unfold genNormals at h
    injection h with h
    subst h
    simp
  | cons f rest ih =>
    intro acc ns h
    unfold genNormals at h
    rcases hF : faceNormal sqrt verts f with _ | n <;> rw [hF] at h
    · simp at h
    · dsimp only at h
      have := ih (acc ++ [n]) ns h
      simp at this
      simp [this]
      omega

/-- A finished normal-generation loop visited every face with all
three vertex lookups succeeding. -/
lemma genNormals_ok_valid (sqrt : ℚ → ℚ) (verts : List Vec3) :
    ∀ (fs : List Face) (acc ns : List Vec3),
      genNormals sqrt verts fs acc = .ok ns →
      ∀ f ∈ fs, (faceNormal sqrt verts f).isSome = true := by
  intro fs
  induction fs with
  | nil => intro acc ns _ f hf; simp at hf
  | cons g rest ih =>
    intro acc ns h f hf
    unfold genNormals at h
    rcases hF : faceNormal sqrt verts g with _ | n <;> rw [hF] at h
    · simp at h
    · dsimp only at h
      rcases List.mem_cons.mp hf with rfl | hmem
      · simp [hF]
      · exact ih (acc ++ [n]) ns h f hmem

lemma spherePts_length (s c : ℚ → ℚ) (pi : ℚ) (r : ℕ) :
    (spherePts s c pi r).length = (r + 1) * (r + 1) := by
  simp [spherePts, List.length_flatMap, Function.comp_def, List.map_const']

lemma sphereFaces_length (r : ℕ) :
    (sphereFaces r).length = 2 * r * r := by
  simp [sphereFaces, sphereQuad, List.length_flatMap, Function.comp_def, List.map_const']
  ring

lemma generate_sphere_fields (s c : ℚ → ℚ) (pi : ℚ) (rand : ℕ → RGB)
    (m : Mesh) (r : ℕ) :
    (Mesh.generate_sphere s c pi rand m r).vertices = spherePts s c pi r ∧
      (Mesh.generate_sphere s c pi rand m r).faces = sphereFaces r ∧
      (Mesh.generate_sphere s c pi rand m r).normals = spherePts s c pi r ∧
      (Mesh.generate_sphere s c pi rand m r).colors =
        (List.range (sphereFaces r).length).map rand := by
  obtain ⟨h1, h2, h3, h4, -⟩ := calculate_bounding_box_fields
    { m with vertices := spherePts s c pi r,
             faces := sphereFaces r,
             normals := spherePts s c pi r,
             colors := (List.range (sphereFaces r).length).map rand,
             vertex_cache := [] }
  exact ⟨h1, h2, h3, h4⟩

lemma sq_ne_two_sq (r : ℕ) (hr : 1 ≤ r) : (r + 1) * (r + 1) ≠ 2 * r * r := by
  intro heq
  cases r with
  | zero => omega
  | succ r1 =>
    cases r1 with
    | zero => norm_num at heq
    | succ r2 =>
      cases r2 with
      | zero => norm_num at heq
      | succ n =>
        have hkey : (n + 3 + 1) * (n + 3 + 1) + (n * n + 4 * n + 2) =
            2 * (n + 3) * (n + 3) := by ring
        have hnn : 0 ≤ n * n := Nat.zero_le _
        linarith

/-- Claim C1, amended: the cube builder and a successful import give
`len(Normals) = len(Faces) = len(Colors)`, but the sphere builder
stores `(r+1)×(r+1)` per-vertex normals against `2×r×r` faces (and
`2×r×r` colors), so its normal count never equals its face count for
any resolution `r ≥ 1`. -/
theorem C1_lengths_amended :
    (∀ m : Mesh,
        (Mesh.generate_cube m).normals.length = (Mesh.generate_cube m).faces.length ∧
        (Mesh.generate_cube m).colors.length = (Mesh.generate_cube m).faces.length) ∧
    (∀ (s c : ℚ → ℚ) (pi : ℚ) (rand : ℕ → RGB) (m : Mesh) (r : ℕ),
        (Mesh.generate_sphere s c pi rand m r).colors.length =
          (Mesh.generate_sphere s c pi rand m r).faces.length ∧
        (Mesh.generate_sphere s c pi rand m r).faces.length = 2 * r * r ∧
        (Mesh.generate_sphere s c pi rand m r).normals.length = (r + 1) * (r + 1) ∧
        (1 ≤ r →
          (Mesh.generate_sphere s c pi rand m r).normals.length ≠
            (Mesh.generate_sphere s c pi rand m r).faces.length)) ∧
    (∀ (sqrt : ℚ → ℚ) (rand : ℕ → RGB) (m : Mesh) (file : Option (List ObjLine))
        (m' : Mesh), Mesh.load_from_obj sqrt rand m file = (true, m') →
        m'.normals.length = m'.faces.length ∧
        m'.colors.length = m'.faces.length) := by
  refine ⟨fun m => ⟨rfl, rfl⟩, ?_, ?_⟩
  · intro s c pi rand m r
    obtain ⟨-, hf, hn, hc⟩ := generate_sphere_fields s c pi rand m r
    refine ⟨?_, ?_, ?_, ?_⟩
    · rw [hc, hf]; simp
    · rw [hf, sphereFaces_length]
    · rw [hn, spherePts_length]
    · intro hr
      rw [hn, hf, spherePts_length, sphereFaces_length]
      exact sq_ne_two_sq r hr
  · intro sqrt rand m file m' h
    obtain ⟨lines, m1, ns, -, hE, hG, rfl⟩ := load_from_obj_ok sqrt rand m file m' h
    obtain ⟨-, hf, hn, hc, -⟩ := calculate_bounding_box_fields
      { m1 with normals := ns, colors := (List.range m1.faces.length).map rand }
    have hlen := genNormals_ok_length sqrt m1.vertices m1.faces [] ns hG
    constructor
    · rw [hn, hf]
      simpa using hlen
    · rw [hc, hf]
      simp

/-- Claim C1 witness: the amended sphere inequality at resolution 1. -/
theorem C1_witness :
    (1 : ℕ) ≤ 1 ∧
      (Mesh.generate_sphere q0 q0 0 r0 m00 1).normals.length ≠
        (Mesh.generate_sphere q0 q0 0 r0 m00 1).faces.length :=
  ⟨le_refl 1, (C1_lengths_amended.2.1 q0 q0 0 r0 m00 1).2.2.2 (le_refl 1)⟩

/-- Claim C2, amended: a failed import does report failure, but the
mesh is *not* left as it was: its geometry sequences are cleared
before parsing and may be partially repopulated when the failure hits;
what does hold on every failure path is that the colors sequence is
empty (colors are generated last) and the bounding box still has its
pre-import value (it is recomputed only on success) — and an
unreadable source leaves exactly the cleared mesh. -/
theorem C2_import_failure_amended :
    (∀ (sqrt : ℚ → ℚ) (rand : ℕ → RGB) (m : Mesh),
        Mesh.load_from_obj sqrt rand m none = (false, clearMesh m)) ∧
    (∀ (sqrt : ℚ → ℚ) (rand : ℕ → RGB) (m : Mesh) (file : Option (List ObjLine))
        (res : Bool × Mesh), Mesh.load_from_obj sqrt rand m file = res →
        res.1 = false →
        res.2.colors = [] ∧ res.2.bounding_box = m.bounding_box) := by
  constructor
  · intro sqrt rand m
    rfl
  · intro sqrt rand m file res hres hfail
    exact load_from_obj_failure sqrt rand m file res hres hfail

/-- Claim C2 witness: the amended failure guarantees at the concrete
malformed file. -/
theorem C2_witness :
    (Mesh.load_from_obj q0 r0 cubeM badFile).1 = false ∧
      (Mesh.load_from_obj q0 r0 cubeM badFile).2.colors = [] ∧
      (Mesh.load_from_obj q0 r0 cubeM badFile).2.bounding_box = cubeM.bounding_box := by
  refine ⟨by with_unfolding_all decide, ?_⟩
  exact C2_import_failure_amended.2 q0 r0 cubeM badFile _ rfl
    (by with_unfolding_all decide)

/-- Claim C5, amended: `auto_position` sets the camera `z` to
`-2.5 ×` the largest bounding-box extent, with no minimum-distance
fallback; an *empty* mesh does end up at distance 5 (because the
bounding box falls back to the unit cube), but a zero-size box from a
single-point mesh yields camera distance `0`. -/
theorem C5_auto_position_amended :
    (∀ (c : Camera) (m : Mesh),
        (Camera.auto_position c m).1.z =
          -(max m.get_size.1 (max m.get_size.2.1 m.get_size.2.2)) * (5 / 2)) ∧
    (∀ (c : Camera) (m : Mesh), m.vertices = [] →
        (Camera.auto_position c m.calculate_bounding_box).1.z = -5) := by
  constructor
  · intro c m
    rfl
  · intro c m h
    rcases m with ⟨vs, fs, ns, cs, bb, vc⟩
    simp only at h
    subst h
    simp [Camera.auto_position, Mesh.calculate_bounding_box, Mesh.get_size]
    norm_num

/-- Claim C5 witness: the amended fallback applied to the blank mesh. -/
theorem C5_witness :
    m00.vertices = [] ∧
      (Camera.auto_position Camera.init m00.calculate_bounding_box).1.z = -5 :=
  ⟨rfl, C5_auto_position_amended.2 Camera.init m00 rfl⟩

lemma sphereQuad_mem_bounds (r i j : ℕ) (hi : i < r) (hj : j < r) :
    ∀ f ∈ sphereQuad r i j,
      (0 ≤ f.1 ∧ f.1 < ((r + 1) * (r + 1) : ℕ)) ∧
      (0 ≤ f.2.1 ∧ f.2.1 < ((r + 1) * (r + 1) : ℕ)) ∧
      (0 ≤ f.2.2 ∧ f.2.2 < ((r + 1) * (r + 1) : ℕ)) := by
  intro f hf
  have hi2 : (i : ℤ) < r := by exact_mod_cast hi
  have hj2 : (j : ℤ) < r := by exact_mod_cast hj
  have hp : (i : ℤ) * ((r : ℤ) + 1) ≤ ((r : ℤ) - 1) * ((r : ℤ) + 1) :=
    mul_le_mul_of_nonneg_right (by omega) (by omega)
  simp only [sphereQuad, List.mem_cons, List.mem_singleton] at hf
  rcases hf with rfl | rfl | hf
  · refine ⟨⟨?_, ?_⟩, ⟨?_, ?_⟩, ⟨?_, ?_⟩⟩ <;> push_cast <;> nlinarith [hp]
  · refine ⟨⟨?_, ?_⟩, ⟨?_, ?_⟩, ⟨?_, ?_⟩⟩ <;> push_cast <;> nlinarith [hp]
  · simp at hf

/-- Claim C4, amended: after the cube and sphere builders every face
index `i` satisfies `0 ≤ i < len(vertices)`; after a *successful*
file load every face index is only guaranteed Python-valid,
`-len(vertices) ≤ i < len(vertices)` — a face token `0` becomes the
stored negative index `-1`, which Python's indexing accepts during
normal generation, so the import can succeed with indices that are
not valid 0-based references (out-of-range indices beyond either end
do fail the import). -/
theorem C4_face_indices_amended :
    (∀ m : Mesh, ∀ f ∈ (Mesh.generate_cube m).faces,
        (0 ≤ f.1 ∧ f.1 < (Mesh.generate_cube m).vertices.length) ∧
        (0 ≤ f.2.1 ∧ f.2.1 < (Mesh.generate_cube m).vertices.length) ∧
        (0 ≤ f.2.2 ∧ f.2.2 < (Mesh.generate_cube m).vertices.length)) ∧
    (∀ (s c : ℚ → ℚ) (pi : ℚ) (rand : ℕ → RGB) (m : Mesh) (r : ℕ),
        ∀ f ∈ (Mesh.generate_sphere s c pi rand m r).faces,
        (0 ≤ f.1 ∧ f.1 < (Mesh.generate_sphere s c pi rand m r).vertices.length) ∧
        (0 ≤ f.2.1 ∧ f.2.1 < (Mesh.generate_sphere s c pi rand m r).vertices.length) ∧
        (0 ≤ f.2.2 ∧ f.2.2 < (Mesh.generate_sphere s c pi rand m r).vertices.length)) ∧
    (∀ (sqrt : ℚ → ℚ) (rand : ℕ → RGB) (m : Mesh) (file : Option (List ObjLine))
        (m' : Mesh), Mesh.load_from_obj sqrt rand m file = (true, m') →
        ∀ f ∈ m'.faces,
          pyValid m'.vertices.length f.1 ∧ pyValid m'.vertices.length f.2.1 ∧
            pyValid m'.vertices.length f.2.2) := by
  refine ⟨?_, ?_, ?_⟩
  · intro m f hf
    have hfs : (Mesh.generate_cube m).faces =
        [((0 : ℤ), (1 : ℤ), (2 : ℤ)), (0, 2, 3), (4, 5, 6), (4, 6, 7), (0, 4, 7), (0, 7, 3),
         (1, 5, 6), (1, 6, 2), (3, 2, 6), (3, 6, 7), (0, 1, 5), (0, 5, 4)] :=
      (calculate_bounding_box_fields _).2.1
    have hvs : (Mesh.generate_cube m).vertices =
        [((-1 : ℚ), (-1 : ℚ), (-1 : ℚ)), (1, -1, -1), (1, 1, -1), (-1, 1, -1),
         (-1, -1, 1), (1, -1, 1), (1, 1, 1), (-1, 1, 1)] :=
      (calculate_bounding_box_fields _).1
    have hvl : (Mesh.generate_cube m).vertices.length = 8 := by
      rw [hvs]
      rfl
    rw [hfs] at hf
    rw [hvl]
    fin_cases hf <;> refine ⟨⟨?_, ?_⟩, ⟨?_, ?_⟩, ⟨?_, ?_⟩⟩ <;> decide
  · intro s c pi rand m r f hf
    obtain ⟨hv, hfaces, -, -⟩ := generate_sphere_fields s c pi rand m r
    rw [hfaces] at hf
    rw [hv, spherePts_length]
    rcases List.mem_flatMap.mp hf with ⟨i, hi, hinner⟩
    rcases List.mem_flatMap.mp hinner with ⟨j, hj, hq⟩
    exact sphereQuad_mem_bounds r i j (List.mem_range.mp hi) (List.mem_range.mp hj) f hq
  · intro sqrt rand m file m' h f hf
    obtain ⟨lines, m1, ns, -, hE, hG, rfl⟩ := load_from_obj_ok sqrt rand m file m' h
    obtain ⟨hv, hfaces, -, -, -⟩ := calculate_bounding_box_fields
      { m1 with normals := ns, colors := (List.range m1.faces.length).map rand }
    rw [hfaces] at hf
    rw [hv]
    have hsome := genNormals_ok_valid sqrt m1.vertices m1.faces [] ns hG f hf
    obtain ⟨h1, h2, h3⟩ := faceNormal_isSome sqrt m1.vertices f hsome
    exact ⟨(pyGet_isSome _ _).mp h1, (pyGet_isSome _ _).mp h2, (pyGet_isSome _ _).mp h3⟩

/-- Claim C4 witness: the amended Python-validity at the concrete
successful import holding the face `(0, 1, -1)`. -/
theorem C4_witness :
    pyValid (Mesh.load_from_obj q0 r0 cubeM negFile).2.vertices.length 0 ∧
      pyValid (Mesh.load_from_obj q0 r0 cubeM negFile).2.vertices.length 1 ∧
      pyValid (Mesh.load_from_obj q0 r0 cubeM negFile).2.vertices.length (-1) := by
  have h := C4_face_indices_amended.2.2 q0 r0 cubeM negFile
    (Mesh.load_from_obj q0 r0 cubeM negFile).2 (by with_unfolding_all decide)
  exact h ((0 : ℤ), (1 : ℤ), (-1 : ℤ)) (by with_unfolding_all decide)

lemma insertByDepth_perm (x : ℕ × ℚ) (l : List (ℕ × ℚ)) :
    (insertByDepth x l).Perm (x :: l) := by
  induction l with
  | nil => rfl
  | cons y ys ih =>
    unfold insertByDepth
    split
    · exact (ih.cons y).trans (List.Perm.swap x y ys)
    · rfl

lemma sortFaceDepths_perm (l : List (ℕ × ℚ)) : (sortFaceDepths l).Perm l := by
  induction l with
  | nil => rfl
  | cons a rest ih =>
    exact (insertByDepth_perm a (sortFaceDepths rest)).trans (ih.cons a)

lemma insertByDepth_pairwise (x : ℕ × ℚ) (l : List (ℕ × ℚ))
    (h : l.Pairwise fun a b => b.2 ≤ a.2) :
    (insertByDepth x l).Pairwise fun a b => b.2 ≤ a.2 := by
  induction l with
  | nil => simp [insertByDepth]
  | cons y ys ih =>
    rw [List.pairwise_cons] at h
    unfold insertByDepth
    split
    · rename_i hlt
      rw [List.pairwise_cons]
      constructor
      · intro b hb
        rcases List.mem_cons.mp ((insertByDepth_perm x ys).mem_iff.mp hb) with rfl | hmem
        · exact le_of_lt hlt
        · exact h.1 b hmem
      · exact ih h.2
    · rename_i hge
      rw [List.pairwise_cons]
      refine ⟨?_, List.pairwise_cons.mpr h⟩
      intro b hb
      rcases List.mem_cons.mp hb with rfl | hmem
      · exact le_of_not_lt hge
      · exact le_trans (h.1 b hmem) (le_of_not_lt hge)

lemma sortFaceDepths_pairwise (l : List (ℕ × ℚ)) :
    (sortFaceDepths l).Pairwise fun a b => b.2 ≤ a.2 := by
  induction l with
  | nil => simp [sortFaceDepths]
  | cons a rest ih => exact insertByDepth_pairwise a (sortFaceDepths rest) ih

lemma insertByDepth_filter (x : ℕ × ℚ) (l : List (ℕ × ℚ)) (d : ℚ) :
    (insertByDepth x l).filter (fun p => p.2 = d) =
      if x.2 = d then x :: l.filter (fun p => p.2 = d)
      else l.filter (fun p => p.2 = d) := by
  induction l with
  | nil =>
    simp only [insertByDepth, List.filter]
    by_cases hx : x.2 = d <;> simp [hx]
  | cons y ys ih =>
    unfold insertByDepth
    split
    · rename_i hlt
      by_cases hx : x.2 = d
      · by_cases hy : y.2 = d
        · exfalso
          rw [hx, hy] at hlt
          exact lt_irrefl d hlt
        · simp [List.filter_cons, hy, hx, ih]
      · simp [List.filter_cons, hx, ih]
    · by_cases hx : x.2 = d <;> simp [List.filter_cons, hx]

lemma sortFaceDepths_filter (l : List (ℕ × ℚ)) (d : ℚ) :
    (sortFaceDepths l).filter (fun p => p.2 = d) =
      l.filter (fun p => p.2 = d) := by
  induction l with
  | nil => rfl
  | cons a rest ih =>
    show (insertByDepth a (sortFaceDepths rest)).filter (fun p => p.2 = d) = _
    rw [insertByDepth_filter]
    by_cases ha : a.2 = d <;> simp [ha, List.filter_cons, ih]

lemma sortFaceDepths_sorted_fix (l : List (ℕ × ℚ))
    (h : l.Pairwise fun a b => b.2 ≤ a.2) : sortFaceDepths l = l := by
  induction l with
  | nil => rfl
  | cons a rest ih =>
    rw [List.pairwise_cons] at h
    show insertByDepth a (sortFaceDepths rest) = a :: rest
    rw [ih h.2]
    cases rest with
    | nil => rfl
    | cons y ys =>
      unfold insertByDepth
      have : ¬(a.2 < y.2) := not_lt_of_le (h.1 y (List.mem_cons_self y ys))
      simp [this]

/-- Claim C7: the per-frame face sort (`sort(key=depth, reverse=True)`)
orders pairs by average depth descending, is stable (pairs of any
given depth appear exactly in their original relative order), is a
permutation of its input, and is idempotent. -/
theorem C7_depth_sort :
    ∀ l : List (ℕ × ℚ),
      (sortFaceDepths l).Pairwise (fun a b => b.2 ≤ a.2) ∧
      (∀ d : ℚ, (sortFaceDepths l).filter (fun p => p.2 = d) =
        l.filter (fun p => p.2 = d)) ∧
      (sortFaceDepths l).Perm l ∧
      sortFaceDepths (sortFaceDepths l) = sortFaceDepths l := by
  intro l
  exact ⟨sortFaceDepths_pairwise l, fun d => sortFaceDepths_filter l d,
    sortFaceDepths_perm l,
    sortFaceDepths_sorted_fix (sortFaceDepths l) (sortFaceDepths_pairwise l)⟩

/-- Claim C6: cached per-vertex projections are reused iff the
camera-state fingerprint matches the stored key, the moved flag is
clear, and performance mode is off; in every other case the cache is
cleared, the new fingerprint is stored (and the moved flag reset), and
each vertex is projected freshly; on reuse, camera and cache are left
as they are and a cache hit returns the stored projection. -/
theorem C6_cache_reuse :
    ∀ (performance_mode : Bool) (c : Camera) (vc : VCache) (sin cos : ℚ → ℚ),
      ((cacheDecision performance_mode c vc).1 = true ↔
        c.moved = false ∧ c.cache_key = some (fingerprint c) ∧
          performance_mode = false) ∧
      ((cacheDecision performance_mode c vc).1 = false →
        (cacheDecision performance_mode c vc).2.2 = [] ∧
        (cacheDecision performance_mode c vc).2.1.cache_key = some (fingerprint c) ∧
        (cacheDecision performance_mode c vc).2.1.moved = false ∧
        ∀ (i : ℕ) (v : Vec3),
          (cachedProject sin cos c false [] i v).1 = Camera.project sin cos c v) ∧
      ((cacheDecision performance_mode c vc).1 = true →
        (cacheDecision performance_mode c vc).2.1 = c ∧
        (cacheDecision performance_mode c vc).2.2 = vc ∧
        ∀ (i : ℕ) (v : Vec3) (p : Proj), lookupVC vc i = some p →
          (cachedProject sin cos c true vc i v).1 = p) := by
  intro perf c vc s cs
  by_cases hcond : c.moved = false ∧ c.cache_key = some (fingerprint c) ∧ perf = false
  · refine ⟨by simp [cacheDecision, hcond], ?_, ?_⟩
    · intro hfalse
      simp [cacheDecision, hcond] at hfalse
    · intro _
      refine ⟨by simp [cacheDecision, hcond], by simp [cacheDecision, hcond], ?_⟩
      intro i v p hlk
      unfold cachedProject
      rw [hlk]
  · refine ⟨by simp [cacheDecision, hcond], ?_, ?_⟩
    · intro _
      refine ⟨by simp [cacheDecision, hcond], by simp [cacheDecision, hcond],
        by simp [cacheDecision, hcond], ?_⟩
      intro i v
      rfl
    · intro htrue
      simp [cacheDecision, hcond] at htrue

/-- Claim C6 witness: the non-reuse guarantees with performance mode
on (one of the "other" cases) at the default camera. -/
theorem C6_witness :
    (cacheDecision true Camera.init []).2.2 = [] ∧
      (cacheDecision true Camera.init []).2.1.cache_key =
        some (fingerprint Camera.init) := by
  have h := (C6_cache_reuse true Camera.init [] q0 q0).2.1
    (by with_unfolding_all decide)
  exact ⟨h.1, h.2.1⟩

/-- Claim C8: the sphere builder at resolution `r ≥ 1` produces
`(r+1)×(r+1)` vertices and `2×r×r` faces, and every stored normal is a
unit vector (exactly, under the Pythagorean identity for the supplied
`sin`/`cos`). -/
theorem C8_sphere_counts_normals :
    ∀ (sin cos : ℚ → ℚ) (pi : ℚ) (rand : ℕ → RGB) (m : Mesh) (r : ℕ),
      (∀ x : ℚ, sin x ^ 2 + cos x ^ 2 = 1) → 1 ≤ r →
      (Mesh.generate_sphere sin cos pi rand m r).vertices.length = (r + 1) * (r + 1) ∧
      (Mesh.generate_sphere sin cos pi rand m r).faces.length = 2 * r * r ∧
      ∀ n ∈ (Mesh.generate_sphere sin cos pi rand m r).normals,
        n.1 ^ 2 + n.2.1 ^ 2 + n.2.2 ^ 2 = 1 := by
  intro s c pi rand m r hsc hr
  obtain ⟨hv, hf, hn, -⟩ := generate_sphere_fields s c pi rand m r
  refine ⟨by rw [hv, spherePts_length], by rw [hf, sphereFaces_length], ?_⟩
  intro n hn2
  rw [hn] at hn2
  rcases List.mem_flatMap.mp hn2 with ⟨i, -, hin⟩
  rcases List.mem_map.mp hin with ⟨j, -, rfl⟩
  simp only [spherePoint]
  linear_combination (s (pi * i / r)) ^ 2 * hsc (2 * pi * j / r) + hsc (pi * i / r)

/-- Claim C8 witness: the hypotheses hold for `sin = 0`, `cos = 1`,
resolution 1, and the conclusion follows by the theorem. -/
theorem C8_witness :
    ((∀ x : ℚ, q0 x ^ 2 + c1 x ^ 2 = 1) ∧ (1 : ℕ) ≤ 1) ∧
      (Mesh.generate_sphere q0 c1 0 r0 m00 1).vertices.length = (1 + 1) * (1 + 1) ∧
      (Mesh.generate_sphere q0 c1 0 r0 m00 1).faces.length = 2 * 1 * 1 ∧
      ∀ n ∈ (Mesh.generate_sphere q0 c1 0 r0 m00 1).normals,
        n.1 ^ 2 + n.2.1 ^ 2 + n.2.2 ^ 2 = 1 := by
  have hsc : ∀ x : ℚ, q0 x ^ 2 + c1 x ^ 2 = 1 := by
    intro x
    simp [q0, c1]
  exact ⟨⟨hsc, le_refl 1⟩,
    C8_sphere_counts_normals q0 c1 0 r0 m00 1 hsc (le_refl 1)⟩
